import Mathlib

/-!
# Verification of the `prf` profiler (`profiler.hpp`)

A shallow embedding of the event model, the scope guards, the clock helpers and the
file-backed collector of `profiler.hpp`, followed by the properties proved about them.

Conventions of the embedding.

* `std::ofstream` is a record of the text written so far and of whether the file is open.
  Opening succeeds and insertions into an open stream append; the operating system never
  fails a write.  An insertion into a closed stream stores nothing; the error flags of the
  stream, which nothing in the program reads, are not modelled.  A collector is only used
  within its lifetime: nothing is stated about a member call on a destroyed object.
* Tick counts (`ticks_ns_t`, a signed 64-bit count of nanoseconds) are integers; the
  arithmetic stays far inside the 64-bit range for any real clock, and signed overflow,
  which C++ leaves undefined, is not modelled: where a property depends on a difference of
  ticks being the one the source computes, it assumes that the difference fits 64 bits.
* The clock is an oracle `now : Nat → Int`: `now k` is the value, in nanoseconds since the
  clock epoch, returned by the `k`-th call of `std::chrono::high_resolution_clock::now()`.
  The world counts the reads performed so far.
* The text the stream produces for a floating-point argument is a parameter
  `micros : Int → String`: `micros n` is what `os << (n / 1000.)` inserts for the integer `n`
  (conversion to `double`, division, default formatting).  Its numeric value is `n / 1000`.
-/

namespace prf

/-! ## Output stream -/

/-- Model of `std::ofstream`: the text stored in the file and whether the file is open. -/
structure ofstream where
  content : String
  is_open : Bool
  deriving DecidableEq, Repr

/-- Model of `std::ofstream(filename)`: a freshly opened (truncated) file. -/
def ofstream.ctor : ofstream :=
  { content := "", is_open := true }

/-- Formatted insertion of a piece of text (`os << text`): appended when the file is open,
stored nowhere otherwise. -/
def ofstream.put (os : ofstream) (text : String) : ofstream :=
  if os.is_open then { os with content := os.content ++ text } else os

/-- Insertion of a `std::size_t` (`os << n`): its decimal digits. -/
def ofstream.put_size_t (os : ofstream) (n : Nat) : ofstream :=
  os.put (Nat.repr n)

/-- Model of the `std::ofstream` destructor: the file is closed. -/
def ofstream.dtor (os : ofstream) : ofstream :=
  { os with is_open := false }

/-! ## Event model -/

/-- The struct `DurationEvent`. -/
structure DurationEvent where
  name : String
  group_id : Nat
  start : Int
  «end» : Int
  deriving DecidableEq, Repr

/-- The struct `InstantEvent`. -/
structure InstantEvent where
  name : String
  group_id : Nat
  time : Int
  deriving DecidableEq, Repr

/-- The struct `BeginProfile`, with its default member initialiser. -/
structure BeginProfile where
  unit : String := "ms"

/-- The struct `EndProfile`. -/
structure EndProfile where

/-! ## Serialisation (`operator<<`) -/

/-- The `operator<<(std::ostream&, InstantEvent const&)`. -/
def InstantEvent.insert (micros : Int → String) (os : ofstream) (event : InstantEvent) :
    ofstream :=
  os.put ",\x7b\"name\":\""
    |>.put event.name
    |>.put "\",\"ph\":\"i\", \"pid\":0,\"tid\":"
    |>.put_size_t event.group_id
    |>.put ",\"ts\":"
    |>.put (micros event.time)
    |>.put ",\"s\":\"g\"\x7d\n"

/-- The `operator<<(std::ostream&, DurationEvent const&)`.  The difference
`event.end - event.start` is taken in the integers: it is the difference the source
computes whenever that difference fits the signed 64-bit tick type, and outside that range
the subtraction of the source overflows, which C++ leaves undefined. -/
def DurationEvent.insert (micros : Int → String) (os : ofstream) (event : DurationEvent) :
    ofstream :=
  os.put ",\x7b\"name\":\""
    |>.put event.name
    |>.put "\",\"ph\":\"X\", \"pid\":0,\"tid\":"
    |>.put_size_t event.group_id
    |>.put ",\"ts\":"
    |>.put (micros event.start)
    |>.put ",\"dur\":"
    |>.put (micros (event.end - event.start))
    |>.put "\x7d\n"

/-- The `operator<<(std::ostream&, BeginProfile const&)`. -/
def BeginProfile.insert (os : ofstream) (info : BeginProfile) : ofstream :=
  os.put "\x7b\"displayTimeUnit\":\""
    |>.put info.unit
    |>.put "\",\"traceEvents\":[\x7b\x7d\n"

/-- The `operator<<(std::ostream&, EndProfile const&)`. -/
def EndProfile.insert (os : ofstream) (_ : EndProfile) : ofstream :=
  os.put "]\x7d"

/-! ## File collector -/

/-- An event handed to a collector: one of the two overloads of `write`. -/
inductive Event where
  | instant (e : InstantEvent)
  | duration (e : DurationEvent)
  deriving DecidableEq, Repr

/-- The struct `FileCollector`: its only member is the output file. -/
structure FileCollector where
  file : ofstream
  deriving DecidableEq, Repr

/-- The constructor `FileCollector(filename)`: opens the file and inserts `BeginProfile{}`. -/
def FileCollector.ctor : FileCollector :=
  { file := BeginProfile.insert ofstream.ctor {} }

/-- The destructor `~FileCollector()`: the body inserts `EndProfile{}`, after which the
member `file` is destroyed, which closes it. -/
def FileCollector.dtor (self : FileCollector) : FileCollector :=
  { file := (EndProfile.insert self.file {}).dtor }

/-- The overload `FileCollector::write(InstantEvent const&)`. -/
def FileCollector.write_instant (micros : Int → String) (self : FileCollector)
    (instant_event : InstantEvent) : FileCollector :=
  { file := InstantEvent.insert micros self.file instant_event }

/-- The overload `FileCollector::write(DurationEvent const&)`. -/
def FileCollector.write_duration (micros : Int → String) (self : FileCollector)
    (duration_event : DurationEvent) : FileCollector :=
  { file := DurationEvent.insert micros self.file duration_event }

/-- Overload resolution of `FileCollector::write` on the static type of the argument. -/
def FileCollector.write (micros : Int → String) (self : FileCollector) : Event → FileCollector
  | .instant e => self.write_instant micros e
  | .duration e => self.write_duration micros e

/-- A whole lifetime of a collector: construction, the given writes in order, destruction. -/
def FileCollector.lifetime (micros : Int → String) (events : List Event) : FileCollector :=
  (events.foldl (FileCollector.write micros) FileCollector.ctor).dtor

/-! ## Clock -/

/-- The part of the program state the profiler touches: the number of clock reads performed
so far, the global `starting_ticks`, and the collector the instrumentation refers to. -/
structure World (C : Type) where
  reads : Nat
  starting_ticks : Int
  collector : C

/-- One call of `std::chrono::high_resolution_clock::now()`, as nanoseconds since the clock
epoch: the next reading of the oracle. -/
def clock_now {C : Type} (now : Nat → Int) (w : World C) : Int × World C :=
  (now w.reads, { w with reads := w.reads + 1 })

/-- The function `get_ticks<std::chrono::nanoseconds>()`. -/
def get_ticks {C : Type} (now : Nat → Int) (w : World C) : Int × World C :=
  clock_now now w

/-- The state after the initialisation `inline auto starting_ticks = get_ticks();`, for a
program whose collector starts in state `c`. -/
def World.init {C : Type} (now : Nat → Int) (c : C) : World C :=
  { reads := 1, starting_ticks := now 0, collector := c }

/-- The struct `Watch`. -/
structure Watch where
  start_time : Int

/-- The constructor `Watch()`. -/
def Watch.ctor {C : Type} (now : Nat → Int) (w : World C) : Watch × World C :=
  let r := clock_now now w
  ({ start_time := r.1 }, r.2)

/-- The member `Watch::get_duration_from_start<Precision>()`; `precision` is the number of
nanoseconds in one unit of `Precision` (1000 for the default, microseconds), and
`duration_cast` truncates toward zero. -/
def Watch.get_duration_from_start {C : Type} (now : Nat → Int) (precision : Int)
    (self : Watch) (w : World C) : Int × World C :=
  let r := clock_now now w
  ((r.1 - self.start_time).tdiv precision, r.2)

/-! ## Scope guards -/

/-- The struct `Deferred<F>`: its only member is the callback, an action on the program
state. -/
structure Deferred (σ : Type) where
  callback : σ → σ

/-- The constructor `Deferred(Arg&&)`: stores the callback and does nothing else. -/
def Deferred.ctor {σ : Type} (arg : σ → σ) (w : σ) : Deferred σ × σ :=
  ({ callback := arg }, w)

/-- The destructor `~Deferred()`. -/
def Deferred.dtor {σ : Type} (self : Deferred σ) (w : σ) : σ :=
  self.callback w

/-- The copy constructor of `Deferred<F>`.  The struct declares a destructor and a
constructor template only, so the copy constructor is the implicitly defined one: a
member-wise copy. -/
def Deferred.copy {σ : Type} (other : Deferred σ) : Deferred σ :=
  { callback := other.callback }

/-- The struct `ScopedWatch<F, Precision>`: a `Watch` with a callback taking the elapsed
duration. -/
structure ScopedWatch (C : Type) extends Watch where
  callback : Int → World C → World C

/-- The constructor `ScopedWatch(Arg&&)`: the base `Watch` reads the clock, the callback is
stored. -/
def ScopedWatch.ctor {C : Type} (now : Nat → Int) (arg : Int → World C → World C)
    (w : World C) : ScopedWatch C × World C :=
  let r := Watch.ctor now w
  ({ toWatch := r.1, callback := arg }, r.2)

/-- The destructor `~ScopedWatch()`. -/
def ScopedWatch.dtor {C : Type} (now : Nat → Int) (precision : Int) (self : ScopedWatch C)
    (w : World C) : World C :=
  let r := self.toWatch.get_duration_from_start now precision w
  self.callback r.1 r.2

/-- The copy constructor of `ScopedWatch<F, Precision>`, implicitly defined as for
`Deferred`. -/
def ScopedWatch.copy {C : Type} (other : ScopedWatch C) : ScopedWatch C :=
  { toWatch := other.toWatch, callback := other.callback }

/-! ## Event construction -/

/-- The function `make_instant_event`. -/
def make_instant_event {C : Type} (now : Nat → Int) (name : String) (group_id : Nat)
    (w : World C) : InstantEvent × World C :=
  let r := get_ticks now w
  ({ name := name, group_id := group_id, time := r.1 - w.starting_ticks }, r.2)

/-- The function `make_duration_event`. -/
def make_duration_event {C : Type} (now : Nat → Int) (name : String) (group_id : Nat)
    (w : World C) : DurationEvent × World C :=
  let r := get_ticks now w
  let now_ticks := r.1 - w.starting_ticks
  ({ name := name, group_id := group_id, start := now_ticks, «end» := now_ticks }, r.2)

/-- The function `end_duration_event`. -/
def end_duration_event {C : Type} (now : Nat → Int) (event : DurationEvent)
    (w : World C) : DurationEvent × World C :=
  let r := get_ticks now w
  ({ event with «end» := r.1 - w.starting_ticks }, r.2)

/-! ## Instrumentation entry points -/

/-- The function template `start_profiling`; `write` is the `write(DurationEvent)` member of
the collector type `T`, and the collector captured by reference is the one in the world. -/
def start_profiling {C : Type} (now : Nat → Int) (write : C → DurationEvent → C)
    (name : String) (group_id : Nat) (w : World C) : Deferred (World C) × World C :=
  let r := make_duration_event now name group_id w
  Deferred.ctor (fun w1 =>
      let f := end_duration_event now r.1 w1
      { f.2 with collector := write f.2.collector f.1 })
    r.2

/-- The function template `emit_instant_event`; `write` is the `write(InstantEvent)` member
of the collector type `T`. -/
def emit_instant_event {C : Type} (now : Nat → Int) (write : C → InstantEvent → C)
    (name : String) (group_id : Nat) (w : World C) : World C :=
  let r := make_instant_event now name group_id w
  { r.2 with collector := write r.2.collector r.1 }

/-! ## Record texts and reference wordings -/

/-- The text of one instant record: what `operator<<` stores in a fresh open stream. -/
def InstantEvent.text (micros : Int → String) (event : InstantEvent) : String :=
  (InstantEvent.insert micros ofstream.ctor event).content

/-- The text of one duration record: what `operator<<` stores in a fresh open stream. -/
def DurationEvent.text (micros : Int → String) (event : DurationEvent) : String :=
  (DurationEvent.insert micros ofstream.ctor event).content

/-- The text of the record of an event of either kind. -/
def Event.text (micros : Int → String) : Event → String
  | .instant e => InstantEvent.text micros e
  | .duration e => DurationEvent.text micros e

/-- The texts of the records of a sequence of events, one after the other. -/
def records (micros : Int → String) : List Event → String
  | [] => ""
  | e :: es => Event.text micros e ++ records micros es

/-- The instant record as the format description words it, with no blank between the
members. -/
def InstantEvent.spec_text (micros : Int → String) (event : InstantEvent) : String :=
  ",\x7b\"name\":\"" ++ event.name ++ "\",\"ph\":\"i\",\"pid\":0,\"tid\":" ++
    Nat.repr event.group_id ++ ",\"ts\":" ++ micros event.time ++ ",\"s\":\"g\"\x7d\n"

/-- The duration record as the format description words it, with no blank between the
members. -/
def DurationEvent.spec_text (micros : Int → String) (event : DurationEvent) : String :=
  ",\x7b\"name\":\"" ++ event.name ++ "\",\"ph\":\"X\",\"pid\":0,\"tid\":" ++
    Nat.repr event.group_id ++ ",\"ts\":" ++ micros event.start ++ ",\"dur\":" ++
    micros (event.end - event.start) ++ "\x7d\n"

/-- The scenario: the collector is opened, an instant event "start" is emitted on lane 1, a
guard named "work" is opened on lane 1 and dropped, and the collector is closed.  The clock
is read once for `starting_ticks` and once by each of the three instrumentation steps. -/
def scenario (now : Nat → Int) (micros : Int → String) : World FileCollector :=
  let w0 := World.init now FileCollector.ctor
  let w1 := emit_instant_event now (FileCollector.write_instant micros) "start" 1 w0
  let g := start_profiling now (FileCollector.write_duration micros) "work" 1 w1
  let w2 := g.1.dtor g.2
  { w2 with collector := w2.collector.dtor }

/-- How control leaves a statement or a block: by reaching its end, by a `return`, or by
an exception that unwinds the stack. -/
inductive Exit where
  | normal
  | early_return
  | unwinding
  deriving DecidableEq, Repr

/-- Runs the statements of a block in order.  The first statement that does not end
normally ends the block with its exit; the statements after it are not run. -/
def run_block {σ : Type} : List (σ → σ × Exit) → σ → σ × Exit
  | [], w => (w, Exit.normal)
  | s :: rest, w =>
    match (s w).2 with
    | Exit.normal => run_block rest (s w).1
    | Exit.early_return => ((s w).1, Exit.early_return)
    | Exit.unwinding => ((s w).1, Exit.unwinding)

/-- A scope that declares a `Deferred` guard and then runs a block.  The guard is an
automatic object: whichever way control leaves the block, its destructor runs as the scope
is left, and the exit is passed on to the enclosing code. -/
def Deferred.scope {σ : Type} (arg : σ → σ) (body : List (σ → σ × Exit)) (w : σ) :
    σ × Exit :=
  let g := Deferred.ctor arg w
  let r := run_block body g.2
  (g.1.dtor r.1, r.2)

/-- A scope that declares a guard and a copy of it and then runs a block: both objects are
destroyed as the scope is left, the copy first. -/
def Deferred.scope_with_copy {σ : Type} (arg : σ → σ) (body : List (σ → σ × Exit))
    (w : σ) : σ × Exit :=
  let g := Deferred.ctor arg w
  let g2 := Deferred.copy g.1
  let r := run_block body g.2
  (g.1.dtor (g2.dtor r.1), r.2)

/-- A scope that declares a `ScopedWatch` guard and then runs a block; the guard is
destroyed as the scope is left, whichever way control leaves the block. -/
def ScopedWatch.scope {C : Type} (now : Nat → Int) (precision : Int)
    (arg : Int → World C → World C) (body : List (World C → World C × Exit))
    (w : World C) : World C × Exit :=
  let g := ScopedWatch.ctor now arg w
  let r := run_block body g.2
  (g.1.dtor now precision r.1, r.2)

/-- A callback instrumented with an invocation counter: the state is paired with the number
of invocations so far. -/
def counted {σ : Type} (cb : σ → σ) : σ × Nat → σ × Nat :=
  fun s => (cb s.1, s.2 + 1)

/-- A statement of the program run next to the invocation counter, which it cannot
reach. -/
def uncounted {σ : Type} (s : σ → σ × Exit) : σ × Nat → (σ × Nat) × Exit :=
  fun p => (((s p.1).1, p.2), (s p.1).2)

/-- The range of `ticks_ns_t`, a signed 64-bit integer. -/
def fits_int64 (n : Int) : Prop :=
  -9223372036854775808 ≤ n ∧ n ≤ 9223372036854775807

instance fits_int64.decidable (n : Int) : Decidable (fits_int64 n) := by
  unfold fits_int64
  infer_instance

/-- The value a signed 64-bit register holds for the integer `n` (two's complement). -/
def wrap_int64 (n : Int) : Int :=
  (n + 9223372036854775808) % 18446744073709551616 - 9223372036854775808

/-! ## JSON texts

A reader for JSON texts after RFC 8259, used to state that the trace file is a JSON
document.  Strings and numbers keep their source text. -/

/-- A JSON value. -/
inductive Json where
  | null
  | bool (b : Bool)
  | number (text : List Char)
  | string (text : List Char)
  | array (elements : List Json)
  | object (members : List (List Char × Json))

/-- The member of an object with the given name, if any. -/
def Json.member (key : List Char) : Json → Option Json
  | .object members => (members.find? (fun m => m.1 = key)).map (fun m => m.2)
  | _ => none

/-- The number of elements of an array. -/
def Json.arrayLength : Json → Option Nat
  | .array elements => some elements.length
  | _ => none

/-- Insignificant whitespace: space, horizontal tab, line feed, carriage return. -/
def isWs (c : Char) : Bool :=
  c = ' ' || c = '\t' || c = '\n' || c = '\r'

/-- Drops leading whitespace. -/
def skipWs : List Char → List Char
  | [] => []
  | c :: rest => if isWs c then skipWs rest else c :: rest

/-- States of the automaton for the number grammar
`[ minus ] int [ frac ] [ exp ]`. -/
inductive NumState where
  | start | minus | zero | int | dot | frac | e | esign | exp | fail
  deriving DecidableEq

/-- One step of the number automaton. -/
def NumState.step : NumState → Char → NumState
  | .start, c => if c = '-' then .minus else if c = '0' then .zero
      else if c.isDigit then .int else .fail
  | .minus, c => if c = '0' then .zero else if c.isDigit then .int else .fail
  | .zero, c => if c = '.' then .dot else if c = 'e' || c = 'E' then .e else .fail
  | .int, c => if c.isDigit then .int else if c = '.' then .dot
      else if c = 'e' || c = 'E' then .e else .fail
  | .dot, c => if c.isDigit then .frac else .fail
  | .frac, c => if c.isDigit then .frac else if c = 'e' || c = 'E' then .e else .fail
  | .e, c => if c = '+' || c = '-' then .esign else if c.isDigit then .exp else .fail
  | .esign, c => if c.isDigit then .exp else .fail
  | .exp, c => if c.isDigit then .exp else .fail
  | .fail, _ => .fail

/-- The states in which a complete number has been read. -/
def NumState.accepting : NumState → Bool
  | .zero | .int | .frac | .exp => true
  | _ => false

/-- Whether a text is a JSON number. -/
def isJsonNumber (s : List Char) : Bool :=
  (s.foldl NumState.step NumState.start).accepting

/-- The characters a number is made of. -/
def isNumChar (c : Char) : Bool :=
  c.isDigit || c = '-' || c = '+' || c = '.' || c = 'e' || c = 'E'

/-- Reads a number: the longest run of number characters, which must be a JSON number. -/
def parseNumber (s : List Char) : Option (Json × List Char) :=
  if isJsonNumber (s.takeWhile isNumChar) then
    some (Json.number (s.takeWhile isNumChar), s.dropWhile isNumChar)
  else none

/-- Reads one of the literal names `true`, `false`, `null`. -/
def parseLiteral (s : List Char) : Option (Json × List Char) :=
  if s.take 4 = ['t', 'r', 'u', 'e'] then some (Json.bool true, s.drop 4)
  else if s.take 5 = ['f', 'a', 'l', 's', 'e'] then some (Json.bool false, s.drop 5)
  else if s.take 4 = ['n', 'u', 'l', 'l'] then some (Json.null, s.drop 4)
  else none

/-- Where the string reader stands: in plain text, right after a backslash, or inside the
four hexadecimal digits of a `\u` escape. -/
inductive StrState where
  | plain
  | escape
  | hex (remaining : Nat)

/-- A hexadecimal digit. -/
def isHexDigit (c : Char) : Bool :=
  c.isDigit || ('a' ≤ c && c ≤ 'f') || ('A' ≤ c && c ≤ 'F')

/-- The characters allowed right after a backslash, `u` apart. -/
def isSimpleEscape (c : Char) : Bool :=
  c = '"' || c = '\\' || c = '/' || c = 'b' || c = 'f' || c = 'n' || c = 'r' || c = 't'

/-- Reads a string after its opening quotation mark, up to the closing one: unescaped
characters must not be control characters, the quotation mark or the backslash. -/
def parseStringBody : StrState → List Char → Option (List Char × List Char)
  | _, [] => none
  | .plain, c :: rest =>
    if c = '"' then some ([], rest)
    else if c = '\\' then
      (parseStringBody .escape rest).map (fun r => (c :: r.1, r.2))
    else if c.toNat < 32 then none
    else (parseStringBody .plain rest).map (fun r => (c :: r.1, r.2))
  | .escape, c :: rest =>
    if c = 'u' then (parseStringBody (.hex 4) rest).map (fun r => (c :: r.1, r.2))
    else if isSimpleEscape c then
      (parseStringBody .plain rest).map (fun r => (c :: r.1, r.2))
    else none
  | .hex 0, _ :: _ => none
  | .hex (k + 1), c :: rest =>
    if isHexDigit c then
      (parseStringBody (if k = 0 then .plain else .hex k) rest).map
        (fun r => (c :: r.1, r.2))
    else none

mutual

/-- Reads a value, with `fuel` bounding the depth of the descent. -/
def parseValue : Nat → List Char → Option (Json × List Char)
  | 0, _ => none
  | fuel + 1, s =>
    match skipWs s with
    | [] => none
    | c :: rest =>
      if c = '\x7b' then
        match skipWs rest with
        | [] => none
        | d :: rest1 =>
          if d = '\x7d' then some (Json.object [], rest1)
          else (parseMembers fuel (d :: rest1)).map (fun r => (Json.object r.1, r.2))
      else if c = '[' then
        match skipWs rest with
        | [] => none
        | d :: rest1 =>
          if d = ']' then some (Json.array [], rest1)
          else (parseElements fuel (d :: rest1)).map (fun r => (Json.array r.1, r.2))
      else if c = '"' then
        (parseStringBody StrState.plain rest).map (fun r => (Json.string r.1, r.2))
      else if c = '-' || c.isDigit then parseNumber (c :: rest)
      else parseLiteral (c :: rest)

/-- Reads the elements of an array after its opening bracket or after a comma: a value,
then either a comma and more elements or the closing bracket. -/
def parseElements : Nat → List Char → Option (List Json × List Char)
  | 0, _ => none
  | fuel + 1, s =>
    match parseValue fuel s with
    | none => none
    | some (v, rest) =>
      match skipWs rest with
      | [] => none
      | c :: rest1 =>
        if c = ',' then (parseElements fuel rest1).map (fun r => (v :: r.1, r.2))
        else if c = ']' then some ([v], rest1)
        else none

/-- Reads the members of an object after its opening brace or after a comma: a string,
a colon, a value, then either a comma and more members or the closing brace. -/
def parseMembers : Nat → List Char → Option (List (List Char × Json) × List Char)
  | 0, _ => none
  | fuel + 1, s =>
    match skipWs s with
    | [] => none
    | q :: rest =>
      if q = '"' then
        match parseStringBody StrState.plain rest with
        | none => none
        | some (key, rest1) =>
          match skipWs rest1 with
          | [] => none
          | c :: rest2 =>
            if c = ':' then
              match parseValue fuel rest2 with
              | none => none
              | some (v, rest3) =>
                match skipWs rest3 with
                | [] => none
                | d :: rest4 =>
                  if d = ',' then
                    (parseMembers fuel rest4).map (fun r => ((key, v) :: r.1, r.2))
                  else if d = '\x7d' then some ([(key, v)], rest4)
                  else none
            else none
      else none

end

/-- Reads a whole JSON text: one value with nothing but whitespace after it.  The fuel
exceeds the length of the text, hence the depth of any descent over it. -/
def parseJson (s : List Char) : Option Json :=
  match parseValue (s.length + 1) s with
  | none => none
  | some (v, rest) => if skipWs rest = [] then some v else none

/-- A text that can stand unescaped between quotation marks: no quotation mark, no
backslash, no control character. -/
def plainText (text : List Char) : Prop :=
  ∀ c ∈ text, c ≠ '"' ∧ c ≠ '\\' ∧ 32 ≤ c.toNat

/-- The numbers of the record of an event are rendered as JSON numbers. -/
def Event.numbersRendered (micros : Int → String) : Event → Prop
  | .instant e => isJsonNumber (micros e.time).data = true
  | .duration e =>
    isJsonNumber (micros e.start).data = true ∧
      isJsonNumber (micros (e.end - e.start)).data = true

/-- The name of an event of either kind. -/
def Event.name : Event → String
  | .instant e => e.name
  | .duration e => e.name

/-- The JSON object the record of an event denotes. -/
def Event.toJson (micros : Int → String) : Event → Json
  | .instant e =>
    Json.object
      [("name".data, Json.string e.name.data), ("ph".data, Json.string "i".data),
       ("pid".data, Json.number "0".data), ("tid".data, Json.number (Nat.repr e.group_id).data),
       ("ts".data, Json.number (micros e.time).data), ("s".data, Json.string "g".data)]
  | .duration e =>
    Json.object
      [("name".data, Json.string e.name.data), ("ph".data, Json.string "X".data),
       ("pid".data, Json.number "0".data), ("tid".data, Json.number (Nat.repr e.group_id).data),
       ("ts".data, Json.number (micros e.start).data),
       ("dur".data, Json.number (micros (e.end - e.start)).data)]


/-- The characters of the JSON object in the record of an instant event, followed by
`more`. -/
def InstantEvent.objectChars (micros : Int → String) (e : InstantEvent) (more : List Char) :
    List Char :=
  '\x7b' :: '"' :: (['n', 'a', 'm', 'e'] ++ '"' :: ':' :: '"' :: (e.name.data ++ '"' :: ',' ::
    '"' :: (['p', 'h'] ++ '"' :: ':' :: '"' :: (['i'] ++ '"' :: ',' :: ' ' :: '"' :: (['p', 'i',
    'd'] ++ '"' :: ':' :: (['0'] ++ ',' :: '"' :: (['t', 'i', 'd'] ++ '"' :: ':' :: ((Nat.repr
    e.group_id).data ++ ',' :: '"' :: (['t', 's'] ++ '"' :: ':' :: ((micros e.time).data ++ ','
    :: '"' :: (['s'] ++ '"' :: ':' :: '"' :: (['g'] ++ '"' :: '\x7d' :: more))))))))))))

/-- The characters of the JSON object in the record of a duration event, followed by
`more`. -/
def DurationEvent.objectChars (micros : Int → String) (e : DurationEvent)
    (more : List Char) : List Char :=
  '\x7b' :: '"' :: (['n', 'a', 'm', 'e'] ++ '"' :: ':' :: '"' :: (e.name.data ++ '"' :: ',' ::
    '"' :: (['p', 'h'] ++ '"' :: ':' :: '"' :: (['X'] ++ '"' :: ',' :: ' ' :: '"' :: (['p', 'i',
    'd'] ++ '"' :: ':' :: (['0'] ++ ',' :: '"' :: (['t', 'i', 'd'] ++ '"' :: ':' :: ((Nat.repr
    e.group_id).data ++ ',' :: '"' :: (['t', 's'] ++ '"' :: ':' :: ((micros e.start).data ++ ','
    :: '"' :: (['d', 'u', 'r'] ++ '"' :: ':' :: ((micros (e.end - e.start)).data ++ '\x7d' ::
    more))))))))))))

/-- The characters of the JSON object in the record of an event of either kind, followed
by `more`. -/
def Event.objectChars (micros : Int → String) : Event → List Char → List Char
  | .instant e, more => InstantEvent.objectChars micros e more
  | .duration e, more => DurationEvent.objectChars micros e more

instance plainText.decidable (text : List Char) : Decidable (plainText text) := by
  unfold plainText
  infer_instance

instance Event.numbersRendered.decidable (micros : Int → String) (e : Event) :
    Decidable (e.numbersRendered micros) := by
  cases e <;> unfold Event.numbersRendered <;> infer_instance


/-! # Properties -/

/-! ## Stream lemmas -/

theorem ofstream.put_open (os : ofstream) (text : String) (h : os.is_open = true) :
    os.put text = { content := os.content ++ text, is_open := true } := by
  cases os with
  | mk c o =>
    simp only at h
    subst h
    simp [ofstream.put]

theorem InstantEvent.instant_text_eq (micros : Int → String) (event : InstantEvent) :
    InstantEvent.text micros event =
      ",\x7b\"name\":\"" ++ event.name ++ "\",\"ph\":\"i\", \"pid\":0,\"tid\":" ++
        Nat.repr event.group_id ++ ",\"ts\":" ++ micros event.time ++ ",\"s\":\"g\"\x7d\n" := by
  simp [InstantEvent.text, InstantEvent.insert, ofstream.put_size_t, ofstream.put,
    ofstream.ctor]

theorem DurationEvent.duration_text_eq (micros : Int → String) (event : DurationEvent) :
    DurationEvent.text micros event =
      ",\x7b\"name\":\"" ++ event.name ++ "\",\"ph\":\"X\", \"pid\":0,\"tid\":" ++
        Nat.repr event.group_id ++ ",\"ts\":" ++ micros event.start ++ ",\"dur\":" ++
        micros (event.end - event.start) ++ "\x7d\n" := by
  simp [DurationEvent.text, DurationEvent.insert, ofstream.put_size_t, ofstream.put,
    ofstream.ctor]

theorem InstantEvent.instant_insert_open (micros : Int → String) (os : ofstream)
    (event : InstantEvent) (h : os.is_open = true) :
    InstantEvent.insert micros os event =
      { content := os.content ++ InstantEvent.text micros event, is_open := true } := by
  cases os with
  | mk c o =>
    simp only at h
    subst h
    simp [InstantEvent.text, InstantEvent.insert, ofstream.put_size_t, ofstream.put,
      ofstream.ctor, String.append_assoc]

theorem DurationEvent.duration_insert_open (micros : Int → String) (os : ofstream)
    (event : DurationEvent) (h : os.is_open = true) :
    DurationEvent.insert micros os event =
      { content := os.content ++ DurationEvent.text micros event, is_open := true } := by
  cases os with
  | mk c o =>
    simp only at h
    subst h
    simp [DurationEvent.text, DurationEvent.insert, ofstream.put_size_t, ofstream.put,
      ofstream.ctor, String.append_assoc]

theorem FileCollector.write_open (micros : Int → String) (c : FileCollector) (e : Event)
    (h : c.file.is_open = true) :
    (c.write micros e).file =
      { content := c.file.content ++ Event.text micros e, is_open := true } := by
  cases e with
  | instant e =>
    simp [FileCollector.write, FileCollector.write_instant, Event.text,
      InstantEvent.instant_insert_open micros c.file e h]
  | duration e =>
    simp [FileCollector.write, FileCollector.write_duration, Event.text,
      DurationEvent.duration_insert_open micros c.file e h]

theorem FileCollector.foldl_write_open (micros : Int → String) (events : List Event) :
    ∀ c : FileCollector, c.file.is_open = true →
      (events.foldl (FileCollector.write micros) c).file =
        { content := c.file.content ++ records micros events,
          is_open := true } := by
  induction events with
  | nil =>
    intro c h
    cases c with
    | mk f =>
      cases f with
      | mk s o =>
        simp only at h
        subst h
        simp [records]
  | cons e es ih =>
    intro c h
    have hw := FileCollector.write_open micros c e h
    have ho : (c.write micros e).file.is_open = true := by rw [hw]
    rw [List.foldl_cons, ih (c.write micros e) ho, hw]
    simp [records, String.append_assoc]

theorem FileCollector.ctor_file :
    FileCollector.ctor.file =
      { content := "\x7b\"displayTimeUnit\":\"ms\",\"traceEvents\":[\x7b\x7d\n",
        is_open := true } := by
  decide

theorem FileCollector.lifetime_file (micros : Int → String) (events : List Event) :
    (FileCollector.lifetime micros events).file =
      { content := "\x7b\"displayTimeUnit\":\"ms\",\"traceEvents\":[\x7b\x7d\n" ++
          records micros events ++ "]\x7d",
        is_open := false } := by
  have h := FileCollector.foldl_write_open micros events FileCollector.ctor
    (by rw [FileCollector.ctor_file])
  simp only [FileCollector.lifetime, FileCollector.dtor, EndProfile.insert]
  rw [h, ofstream.put_open _ _ rfl, FileCollector.ctor_file]
  simp [ofstream.dtor]

/-! ## Framing of the file (C1) -/

/-- C1: for every sequence of events written in order to a collector that is constructed
and then destroyed, the file holds the header line, then the records of the events in write
order, then the footer with no newline after it, each of header and footer written once;
with no event the file holds exactly the header line followed by the footer. -/
theorem FileCollector.lifetime_content (micros : Int → String) (events : List Event) :
    (FileCollector.lifetime micros events).file.content =
        "\x7b\"displayTimeUnit\":\"ms\",\"traceEvents\":[\x7b\x7d\n" ++
          records micros events ++ "]\x7d" ∧
      (FileCollector.lifetime micros []).file.content =
        "\x7b\"displayTimeUnit\":\"ms\",\"traceEvents\":[\x7b\x7d\n]\x7d" := by
  constructor
  · rw [FileCollector.lifetime_file]
  · rw [FileCollector.lifetime_file]
    simp only [records]
    decide

/-! ## Record texts (C2, C3) -/

/-- C2 (as amended): inserting an instant event into an open stream appends exactly the
text `,{"name":"s","ph":"i", "pid":0,"tid":g,"ts":T,"s":"g"}` and one newline, with one blank
before the `pid` member, where `s` is the name, `g` the lane in decimal and `T` the rendering
of the tick count divided by 1000. -/
theorem InstantEvent.instant_insert_content (micros : Int → String) (os : ofstream)
    (event : InstantEvent) (h : os.is_open = true) :
    (InstantEvent.insert micros os event).content =
      os.content ++ (",\x7b\"name\":\"" ++ event.name ++ "\",\"ph\":\"i\", \"pid\":0,\"tid\":" ++
        Nat.repr event.group_id ++ ",\"ts\":" ++ micros event.time ++
        ",\"s\":\"g\"\x7d\n") := by
  rw [InstantEvent.instant_insert_open micros os event h, InstantEvent.instant_text_eq]

/-- Witness for C2: the instant event named `a` on lane 1 at tick 0, inserted into a fresh
stream. -/
theorem InstantEvent.instant_insert_content_witness :
    ofstream.ctor.is_open = true ∧
      (InstantEvent.insert (fun _ => "0") ofstream.ctor ⟨"a", 1, 0⟩).content =
        ofstream.ctor.content ++ (",\x7b\"name\":\"" ++ "a" ++
          "\",\"ph\":\"i\", \"pid\":0,\"tid\":" ++ Nat.repr 1 ++ ",\"ts\":" ++ "0" ++
          ",\"s\":\"g\"\x7d\n") :=
  ⟨rfl, InstantEvent.instant_insert_content (fun _ => "0") ofstream.ctor ⟨"a", 1, 0⟩ rfl⟩

/-- C2 fails as worded: for the instant event named `a` on lane 1 at tick 0 (rendered `0`) the
stream receives a record with a blank before `"pid"`, which is not the text of the format
description. -/
theorem InstantEvent.instant_spec_text_differs :
    (InstantEvent.insert (fun _ => "0") ofstream.ctor ⟨"a", 1, 0⟩).content =
        ",\x7b\"name\":\"a\",\"ph\":\"i\", \"pid\":0,\"tid\":1,\"ts\":0,\"s\":\"g\"\x7d\n" ∧
      InstantEvent.spec_text (fun _ => "0") ⟨"a", 1, 0⟩ =
        ",\x7b\"name\":\"a\",\"ph\":\"i\",\"pid\":0,\"tid\":1,\"ts\":0,\"s\":\"g\"\x7d\n" ∧
      (InstantEvent.insert (fun _ => "0") ofstream.ctor ⟨"a", 1, 0⟩).content ≠
        ofstream.ctor.content ++ InstantEvent.spec_text (fun _ => "0") ⟨"a", 1, 0⟩ := by
  decide

/-- C3 (as amended): for a duration event whose `end - start` fits the signed 64-bit tick
type, so that the subtraction of the source does not overflow, inserting the event into an
open stream appends exactly the text `,{"name":"s","ph":"X", "pid":0,"tid":g,"ts":A,"dur":D}`
and one newline, with one blank before the `pid` member, where `A` renders the start divided
by 1000 and `D` renders `end - start` divided by 1000, the 64-bit difference being the
mathematical one. -/
theorem DurationEvent.duration_insert_content (micros : Int → String) (os : ofstream)
    (event : DurationEvent) (h : os.is_open = true)
    (hfit : fits_int64 (event.end - event.start)) :
    (DurationEvent.insert micros os event).content =
        os.content ++ (",\x7b\"name\":\"" ++ event.name ++
          "\",\"ph\":\"X\", \"pid\":0,\"tid\":" ++
          Nat.repr event.group_id ++ ",\"ts\":" ++ micros event.start ++ ",\"dur\":" ++
          micros (event.end - event.start) ++ "\x7d\n") ∧
      wrap_int64 (event.end - event.start) = event.end - event.start := by
  refine ⟨?_, ?_⟩
  · rw [DurationEvent.duration_insert_open micros os event h, DurationEvent.duration_text_eq]
  · obtain ⟨hlo, hhi⟩ := hfit
    unfold wrap_int64
    omega

/-- Witness for C3: the duration event named `a` on lane 1 from tick 0 to tick 2000,
inserted into a fresh stream. -/
theorem DurationEvent.duration_insert_content_witness :
    ofstream.ctor.is_open = true ∧ fits_int64 ((2000 : Int) - 0) ∧
      (DurationEvent.insert (fun t => toString (t / 1000)) ofstream.ctor
          ⟨"a", 1, 0, 2000⟩).content =
        ofstream.ctor.content ++ (",\x7b\"name\":\"" ++ "a" ++
          "\",\"ph\":\"X\", \"pid\":0,\"tid\":" ++ Nat.repr 1 ++ ",\"ts\":" ++
          toString ((0 : Int) / 1000) ++ ",\"dur\":" ++
          toString (((2000 : Int) - 0) / 1000) ++ "\x7d\n") :=
  ⟨rfl, by decide,
    (DurationEvent.duration_insert_content (fun t => toString (t / 1000)) ofstream.ctor
      ⟨"a", 1, 0, 2000⟩ rfl (by decide)).1⟩

/-- C3 fails as worded: for the duration event named `a` on lane 1 from tick 0 to tick 0
(both rendered `0`) the stream receives a record with a blank before `"pid"`, which is not
the text of the format description. -/
theorem DurationEvent.duration_spec_text_differs :
    (DurationEvent.insert (fun _ => "0") ofstream.ctor ⟨"a", 1, 0, 0⟩).content =
        ",\x7b\"name\":\"a\",\"ph\":\"X\", \"pid\":0,\"tid\":1,\"ts\":0,\"dur\":0\x7d\n" ∧
      DurationEvent.spec_text (fun _ => "0") ⟨"a", 1, 0, 0⟩ =
        ",\x7b\"name\":\"a\",\"ph\":\"X\",\"pid\":0,\"tid\":1,\"ts\":0,\"dur\":0\x7d\n" ∧
      (DurationEvent.insert (fun _ => "0") ofstream.ctor ⟨"a", 1, 0, 0⟩).content ≠
        ofstream.ctor.content ++ DurationEvent.spec_text (fun _ => "0") ⟨"a", 1, 0, 0⟩ := by
  decide

/-! ## Clock lemmas -/

theorem make_duration_event_fst {C : Type} (now : Nat → Int) (name : String) (group_id : Nat)
    (w : World C) :
    (make_duration_event now name group_id w).1 =
      { name := name, group_id := group_id, start := now w.reads - w.starting_ticks,
        «end» := now w.reads - w.starting_ticks } := rfl

theorem make_duration_event_snd {C : Type} (now : Nat → Int) (name : String) (group_id : Nat)
    (w : World C) :
    (make_duration_event now name group_id w).2 = { w with reads := w.reads + 1 } := rfl

theorem end_duration_event_fst {C : Type} (now : Nat → Int) (event : DurationEvent)
    (w : World C) :
    (end_duration_event now event w).1 =
      { event with «end» := now w.reads - w.starting_ticks } := rfl

theorem make_instant_event_fst {C : Type} (now : Nat → Int) (name : String) (group_id : Nat)
    (w : World C) :
    (make_instant_event now name group_id w).1 =
      { name := name, group_id := group_id, time := now w.reads - w.starting_ticks } := rfl

theorem emit_instant_event_eq {C : Type} (now : Nat → Int) (write : C → InstantEvent → C)
    (name : String) (group_id : Nat) (w : World C) :
    emit_instant_event now write name group_id w =
      { reads := w.reads + 1, starting_ticks := w.starting_ticks,
        collector := write w.collector
          { name := name, group_id := group_id, time := now w.reads - w.starting_ticks } } :=
  rfl

/-! ## Scoped profiling (C5) -/

/-- C5: for every collector type, name and lane, `start_profiling` leaves the collector
untouched, and destroying the guard it returns, in whatever later state, performs exactly
one `write` of a duration event on that collector: the event has the given name and lane,
its start is the tick count read by `start_profiling` and its end the tick count read at
the destruction.  In the scenario (instant `start` on lane 1, guard `work` on lane 1, guard
dropped, collector closed) the file holds the header, exactly two records, the second a
duration record with `ph` equal to `X`, and the footer; the duration of the second record
is positive when the clock advanced between opening and dropping the guard. -/
theorem start_profiling_writes_one_duration_event {C : Type} (now : Nat → Int)
    (write : C → DurationEvent → C) (name : String) (group_id : Nat) (w w1 : World C)
    (micros : Int → String) :
    (start_profiling now write name group_id w).2.collector = w.collector ∧
      ((start_profiling now write name group_id w).1.dtor w1).collector =
        write w1.collector
          { name := name, group_id := group_id,
            start := (get_ticks now w).1 - w.starting_ticks,
            «end» := (get_ticks now w1).1 - w1.starting_ticks } ∧
      (scenario now micros).collector.file.content =
        "\x7b\"displayTimeUnit\":\"ms\",\"traceEvents\":[\x7b\x7d\n" ++
          (",\x7b\"name\":\"start\",\"ph\":\"i\", \"pid\":0,\"tid\":1,\"ts\":" ++
            micros (now 1 - now 0) ++ ",\"s\":\"g\"\x7d\n") ++
          (",\x7b\"name\":\"work\",\"ph\":\"X\", \"pid\":0,\"tid\":1,\"ts\":" ++
            micros (now 2 - now 0) ++ ",\"dur\":" ++
            micros ((now 3 - now 0) - (now 2 - now 0)) ++ "\x7d\n") ++
          "]\x7d" ∧
      (now 2 < now 3 → 0 < (now 3 - now 0) - (now 2 - now 0)) := by
  refine ⟨rfl, rfl, ?_, ?_⟩
  · have h1 : (scenario now micros).collector =
        FileCollector.lifetime micros
          [Event.instant ⟨"start", 1, now 1 - now 0⟩,
           Event.duration ⟨"work", 1, now 2 - now 0, now 3 - now 0⟩] := rfl
    rw [h1, FileCollector.lifetime_file]
    simp only [records, Event.text, InstantEvent.instant_text_eq, DurationEvent.duration_text_eq]
    have r1 : Nat.repr 1 = "1" := by decide
    rw [r1]
    simp only [String.append_assoc, String.append_empty]
    rfl
  · intro h
    omega

/-- Witness for C5: a clock that advances by one tick per read. -/
theorem start_profiling_writes_one_duration_event_witness :
    (Int.ofNat 2 < Int.ofNat 3) ∧
      0 < (Int.ofNat 3 - Int.ofNat 0) - (Int.ofNat 2 - Int.ofNat 0) :=
  ⟨by decide,
    (start_profiling_writes_one_duration_event Int.ofNat
      (FileCollector.write_duration (fun _ => "0"))
      "work" 1 (World.init Int.ofNat FileCollector.ctor)
      (World.init Int.ofNat FileCollector.ctor) (fun _ => "0")).2.2.2 (by decide)⟩

/-! ## Scope guards (C6) -/

theorem run_block_uncounted {σ : Type} (body : List (σ → σ × Exit)) :
    ∀ (w : σ) (n : Nat),
      run_block (body.map uncounted) (w, n) =
        (((run_block body w).1, n), (run_block body w).2) := by
  induction body with
  | nil => intro w n; rfl
  | cons s rest ih =>
    intro w n
    simp only [List.map_cons, run_block, uncounted]
    cases h : (s w).2 with
    | normal => simpa [uncounted] using ih (s w).1 n
    | early_return => rfl
    | unwinding => rfl

theorem run_block_collector {C : Type} (body : List (World C → World C × Exit))
    (h : ∀ s ∈ body, ∀ x, (s x).1.collector = x.collector) :
    ∀ w : World C, (run_block body w).1.collector = w.collector := by
  induction body with
  | nil => intro w; rfl
  | cons s rest ih =>
    intro w
    have hs := h s (List.mem_cons_self s rest) w
    have hrest : ∀ t ∈ rest, ∀ x, (t x).1.collector = x.collector :=
      fun t ht => h t (List.mem_cons_of_mem s ht)
    simp only [run_block]
    cases hexit : (s w).2 with
    | normal => simpa [hs] using ih hrest (s w).1
    | early_return => exact hs
    | unwinding => exact hs

/-- C6 (as amended): constructing a guard invokes its callback zero times, and the
destruction of a guard invokes its callback exactly once, on every exit path: a scope that
holds one guard, never copied, has run the callback exactly once when it is left, be it at
the end of its block, by an early return or by unwinding, after the last statement that was
run.  The timed guard only reads the clock at construction and, at destruction, invokes its
callback exactly once, with the truncated time elapsed since construction.  The guards are
copyable: a copy holds the same callback and invokes it at its own destruction, so a scope
holding a guard and one copy of it runs the callback twice. -/
theorem Deferred.callback_invocations {σ C : Type} (cb : σ → σ)
    (body : List (σ → σ × Exit)) (skipped : List (σ × Nat → (σ × Nat) × Exit))
    (w w1 : σ) (n : Nat) (now : Nat → Int) (precision : Int)
    (tcb : Int → World C → World C) (timed : List (World C → World C × Exit))
    (u u1 : World C) (counting : List (World Nat → World Nat × Exit)) (v : World Nat) :
    (Deferred.ctor cb w).2 = w ∧
      (Deferred.ctor cb w).1.dtor w1 = cb w1 ∧
      Deferred.scope (counted cb) (body.map uncounted) (w, n) =
        ((cb (run_block body w).1, n + 1), (run_block body w).2) ∧
      Deferred.scope (counted cb) ((fun p => (p, Exit.early_return)) :: skipped) (w, n) =
        ((cb w, n + 1), Exit.early_return) ∧
      Deferred.scope (counted cb) ((fun p => (p, Exit.unwinding)) :: skipped) (w, n) =
        ((cb w, n + 1), Exit.unwinding) ∧
      (ScopedWatch.ctor now tcb u).2 = { u with reads := u.reads + 1 } ∧
      (ScopedWatch.ctor now tcb u).1.dtor now precision u1 =
        tcb ((now u1.reads - now u.reads).tdiv precision) { u1 with reads := u1.reads + 1 } ∧
      ScopedWatch.scope now precision tcb timed u =
        (tcb
          ((now (run_block timed { u with reads := u.reads + 1 }).1.reads -
            now u.reads).tdiv precision)
          { (run_block timed { u with reads := u.reads + 1 }).1 with
            reads := (run_block timed { u with reads := u.reads + 1 }).1.reads + 1 },
          (run_block timed { u with reads := u.reads + 1 }).2) ∧
      ((∀ s ∈ counting, ∀ x, (s x).1.collector = x.collector) →
        (ScopedWatch.scope now precision
          (fun _ x => { x with collector := x.collector + 1 }) counting v).1.collector =
          v.collector + 1) ∧
      (Deferred.copy (Deferred.ctor cb w).1).dtor w1 = cb w1 ∧
      Deferred.scope_with_copy (counted cb) (body.map uncounted) (w, n) =
        ((cb (cb (run_block body w).1), n + 2), (run_block body w).2) ∧
      (ScopedWatch.copy (ScopedWatch.ctor now tcb u).1).dtor now precision u1 =
        (ScopedWatch.ctor now tcb u).1.dtor now precision u1 := by
  refine ⟨rfl, rfl, ?_, rfl, rfl, rfl, rfl, rfl, ?_, rfl, ?_, rfl⟩
  · simp only [Deferred.scope, Deferred.ctor, Deferred.dtor, run_block_uncounted, counted]
  · intro h
    have hc := run_block_collector counting h { v with reads := v.reads + 1 }
    simp only [ScopedWatch.scope, ScopedWatch.ctor, ScopedWatch.dtor, Watch.ctor,
      Watch.get_duration_from_start, clock_now]
    simpa using hc
  · simp only [Deferred.scope_with_copy, Deferred.ctor, Deferred.dtor, Deferred.copy,
      run_block_uncounted, counted]

/-- Witness for C6: a timed guard counting its invocations in a scope whose block reads the
clock once and is then left by unwinding. -/
theorem Deferred.callback_invocations_witness :
    (∀ s ∈ [(fun x : World Nat => ({ x with reads := x.reads + 1 }, Exit.normal)),
          (fun x : World Nat => (x, Exit.unwinding))],
        ∀ x, (s x).1.collector = x.collector) ∧
      (ScopedWatch.scope Int.ofNat 1000
          (fun _ x => { x with collector := x.collector + 1 })
          [(fun x : World Nat => ({ x with reads := x.reads + 1 }, Exit.normal)),
            (fun x : World Nat => (x, Exit.unwinding))]
          (World.init Int.ofNat 0)).1.collector =
        (World.init Int.ofNat 0).collector + 1 :=
  ⟨by
      intro s hs x
      simp only [List.mem_cons, List.mem_singleton, List.not_mem_nil, or_false] at hs
      rcases hs with rfl | rfl <;> rfl,
    (Deferred.callback_invocations (fun u : Unit => u) [] [] () () 0 Int.ofNat 1000
      (fun _ x => x) [] (World.init Int.ofNat ()) (World.init Int.ofNat ())
      [(fun x : World Nat => ({ x with reads := x.reads + 1 }, Exit.normal)),
        (fun x : World Nat => (x, Exit.unwinding))]
      (World.init Int.ofNat 0)).2.2.2.2.2.2.2.2.1
      (by
        intro s hs x
        simp only [List.mem_cons, List.mem_singleton, List.not_mem_nil, or_false] at hs
        rcases hs with rfl | rfl <;> rfl)⟩

/-- C6 fails as worded: the guard is copyable, and in a scope that holds a guard and a copy
of it the callback, counted from zero, has been invoked twice when the scope is left. -/
theorem Deferred.copy_invokes_twice :
    (Deferred.scope_with_copy (counted (fun u : Unit => u)) [] ((), 0)).1.2 = 2 ∧
      (Deferred.scope_with_copy (counted (fun u : Unit => u)) [] ((), 0)).1.2 ≠ 1 := by
  decide

/-! ## Monotone clock (C7, C8) -/

/-- C7: with a monotone clock, the event returned by `make_duration_event` has its end
equal to its start, both being the one clock reading taken relative to `starting_ticks`; and
finalising it with `end_duration_event` in any later state gives an event whose end is at
least its start and whose name, lane and start are those of the input event. -/
theorem end_duration_event_end_ge_start {C : Type} (now : Nat → Int) (hmono : Monotone now)
    (name : String) (group_id : Nat) (w w1 : World C)
    (hlater : (make_duration_event now name group_id w).2.reads ≤ w1.reads)
    (hepoch : w1.starting_ticks = w.starting_ticks) :
    (make_duration_event now name group_id w).1.end =
        (make_duration_event now name group_id w).1.start ∧
      (make_duration_event now name group_id w).1.start =
        (get_ticks now w).1 - w.starting_ticks ∧
      (end_duration_event now (make_duration_event now name group_id w).1 w1).1.start ≤
        (end_duration_event now (make_duration_event now name group_id w).1 w1).1.end ∧
      (end_duration_event now (make_duration_event now name group_id w).1 w1).1.name =
        (make_duration_event now name group_id w).1.name ∧
      (end_duration_event now (make_duration_event now name group_id w).1 w1).1.group_id =
        (make_duration_event now name group_id w).1.group_id ∧
      (end_duration_event now (make_duration_event now name group_id w).1 w1).1.start =
        (make_duration_event now name group_id w).1.start := by
  refine ⟨rfl, rfl, ?_, rfl, rfl, rfl⟩
  rw [end_duration_event_fst, make_duration_event_fst]
  rw [make_duration_event_snd] at hlater
  have h1 : w.reads ≤ w1.reads := by
    have : w.reads + 1 ≤ w1.reads := hlater
    omega
  have h2 : now w.reads ≤ now w1.reads := hmono h1
  show now w.reads - w.starting_ticks ≤ now w1.reads - w1.starting_ticks
  rw [hepoch]
  omega

/-- Witness for C7: a clock advancing by one tick per read, the event finalised in the
state right after its construction. -/
theorem end_duration_event_end_ge_start_witness :
    Monotone Int.ofNat ∧
      (end_duration_event Int.ofNat
          (make_duration_event Int.ofNat "work" 1 (World.init Int.ofNat ())).1
          (make_duration_event Int.ofNat "work" 1 (World.init Int.ofNat ())).2).1.start ≤
        (end_duration_event Int.ofNat
          (make_duration_event Int.ofNat "work" 1 (World.init Int.ofNat ())).1
          (make_duration_event Int.ofNat "work" 1 (World.init Int.ofNat ())).2).1.end :=
  ⟨fun _ _ h => Int.ofNat_le.mpr h,
    (end_duration_event_end_ge_start Int.ofNat (fun _ _ h => Int.ofNat_le.mpr h) "work" 1
      (World.init Int.ofNat ()) (make_duration_event Int.ofNat "work" 1 (World.init Int.ofNat ())).2
      (Nat.le_refl _) rfl).2.2.1⟩

/-- C8: with a monotone clock, let an instant event A be emitted to an open file collector
and an instant event B be emitted on the same lane in a later state of the same run (later
clock read, same `starting_ticks`, the file grown by whatever was written in between).  Then
the time of A is at most the time of B, so are the two times divided by 1000 and their
images under any order-preserving rounding (as the rounding to `double` and to six
significant digits are), and the record of A stands before the record of B in the file. -/
theorem emit_instant_event_ordered (now : Nat → Int) (hmono : Monotone now)
    (micros : Int → String) (nameA nameB : String) (lane : Nat) (w w1 : World FileCollector)
    (between : String) (hopen : w.collector.file.is_open = true)
    (hlater :
      (emit_instant_event now (FileCollector.write_instant micros) nameA lane w).reads ≤
        w1.reads)
    (hepoch : w1.starting_ticks = w.starting_ticks)
    (hfile : w1.collector.file =
      { content :=
          (emit_instant_event now (FileCollector.write_instant micros) nameA lane
            w).collector.file.content ++ between,
        is_open := true }) :
    (make_instant_event now nameA lane w).1.time ≤
        (make_instant_event now nameB lane w1).1.time ∧
      ((make_instant_event now nameA lane w).1.time : ℚ) / 1000 ≤
        ((make_instant_event now nameB lane w1).1.time : ℚ) / 1000 ∧
      (∀ round : ℚ → ℚ, Monotone round →
        round (((make_instant_event now nameA lane w).1.time : ℚ) / 1000) ≤
          round (((make_instant_event now nameB lane w1).1.time : ℚ) / 1000)) ∧
      (emit_instant_event now (FileCollector.write_instant micros) nameB lane
          w1).collector.file.content =
        w.collector.file.content ++
          InstantEvent.text micros (make_instant_event now nameA lane w).1 ++ between ++
          InstantEvent.text micros (make_instant_event now nameB lane w1).1 := by
  have htime : (make_instant_event now nameA lane w).1.time ≤
      (make_instant_event now nameB lane w1).1.time := by
    rw [make_instant_event_fst, make_instant_event_fst]
    rw [emit_instant_event_eq] at hlater
    have h1 : w.reads ≤ w1.reads := by
      have : w.reads + 1 ≤ w1.reads := hlater
      omega
    have h2 : now w.reads ≤ now w1.reads := hmono h1
    show now w.reads - w.starting_ticks ≤ now w1.reads - w1.starting_ticks
    rw [hepoch]
    omega
  have hq : ((make_instant_event now nameA lane w).1.time : ℚ) ≤
      ((make_instant_event now nameB lane w1).1.time : ℚ) := by exact_mod_cast htime
  have hts : ((make_instant_event now nameA lane w).1.time : ℚ) / 1000 ≤
      ((make_instant_event now nameB lane w1).1.time : ℚ) / 1000 :=
    div_le_div_of_nonneg_right hq (by norm_num)
  refine ⟨htime, hts, fun round hround => hround hts, ?_⟩
  · rw [emit_instant_event_eq] at hfile
    rw [emit_instant_event_eq]
    simp only [FileCollector.write_instant] at hfile ⊢
    rw [InstantEvent.instant_insert_open micros _ _ hopen] at hfile
    rw [InstantEvent.instant_insert_open micros _ _ (by rw [hfile]), hfile]
    simp only [make_instant_event_fst, String.append_assoc]

/-- Witness for C8: a clock advancing by one tick per read, two events emitted one right
after the other to a freshly constructed collector. -/
theorem emit_instant_event_ordered_witness :
    Monotone Int.ofNat ∧
      (make_instant_event Int.ofNat "A" 1 (World.init Int.ofNat FileCollector.ctor)).1.time ≤
        (make_instant_event Int.ofNat "B" 1
          (emit_instant_event Int.ofNat (FileCollector.write_instant (fun _ => "0")) "A" 1
            (World.init Int.ofNat FileCollector.ctor))).1.time :=
  ⟨fun _ _ h => Int.ofNat_le.mpr h,
    (emit_instant_event_ordered Int.ofNat (fun _ _ h => Int.ofNat_le.mpr h) (fun _ => "0")
      "A" "B" 1 (World.init Int.ofNat FileCollector.ctor)
      (emit_instant_event Int.ofNat (FileCollector.write_instant (fun _ => "0")) "A" 1
        (World.init Int.ofNat FileCollector.ctor))
      "" (by decide) (Nat.le_refl _) rfl (by decide)).1⟩

/-! ## Reading strings and numbers -/

theorem parseStringBody_plain (text rest : List Char) (h : plainText text) :
    parseStringBody StrState.plain (text ++ '"' :: rest) = some (text, rest) := by
  induction text with
  | nil => simp [parseStringBody]
  | cons c t ih =>
    have hc := h c (List.mem_cons_self c t)
    have ht : plainText t := fun d hd => h d (List.mem_cons_of_mem c hd)
    have h32 : ¬ c.toNat < 32 := by omega
    simp [parseStringBody, hc.1, hc.2.1, h32, ih ht]

theorem NumState.foldl_fail (s : List Char) :
    s.foldl NumState.step NumState.fail = NumState.fail := by
  induction s with
  | nil => rfl
  | cons c t ih => simpa [NumState.step] using ih

theorem NumState.step_numChar (st : NumState) (c : Char)
    (h : NumState.step st c ≠ NumState.fail) : isNumChar c = true := by
  simp only [isNumChar, Bool.or_eq_true, decide_eq_true_eq]
  cases st <;> simp only [NumState.step, Bool.or_eq_true, decide_eq_true_eq] at h <;>
    first
    | exact absurd rfl h
    | (split_ifs at h <;> first | exact absurd rfl h | (subst_vars; decide) | tauto)

theorem NumState.foldl_numChar (s : List Char) :
    ∀ st : NumState, s.foldl NumState.step st ≠ NumState.fail →
      ∀ c ∈ s, isNumChar c = true := by
  induction s with
  | nil => intro _ _ c hc; cases hc
  | cons d t ih =>
    intro st h c hc
    have hstep : NumState.step st d ≠ NumState.fail := by
      intro hf
      rw [List.foldl_cons, hf, NumState.foldl_fail] at h
      exact h rfl
    rcases List.mem_cons.mp hc with rfl | hct
    · exact NumState.step_numChar st c hstep
    · exact ih (NumState.step st d) h c hct

theorem isJsonNumber_numChar (s : List Char) (h : isJsonNumber s = true) :
    ∀ c ∈ s, isNumChar c = true := by
  apply NumState.foldl_numChar s NumState.start
  intro hf
  rw [isJsonNumber, hf] at h
  cases h

theorem isJsonNumber_head (s : List Char) (h : isJsonNumber s = true) :
    ∃ c t, s = c :: t ∧ (c = '-' || c.isDigit) = true := by
  cases s with
  | nil => cases h
  | cons c t =>
    refine ⟨c, t, rfl, ?_⟩
    have hne : NumState.step NumState.start c ≠ NumState.fail := by
      intro hf
      rw [isJsonNumber, List.foldl_cons, hf, NumState.foldl_fail] at h
      cases h
    simp only [NumState.step] at hne
    split_ifs at hne with h1 h2 h3
    · simp [h1]
    · subst h2; decide
    · simp [h3]
    · exact absurd rfl hne

theorem takeWhile_numChar (num rest : List Char) (d : Char)
    (h : ∀ c ∈ num, isNumChar c = true) (hd : isNumChar d = false) :
    (num ++ d :: rest).takeWhile isNumChar = num ∧
      (num ++ d :: rest).dropWhile isNumChar = d :: rest := by
  induction num with
  | nil => simp [List.takeWhile, List.dropWhile, hd]
  | cons c t ih =>
    have hc := h c (List.mem_cons_self c t)
    have ht := ih (fun x hx => h x (List.mem_cons_of_mem c hx))
    simp [List.takeWhile, List.dropWhile, hc, ht.1, ht.2]

theorem isNumChar_not_structural (c : Char) (h : (c = '-' || c.isDigit) = true) :
    c ≠ '\x7b' ∧ c ≠ '[' ∧ c ≠ '"' ∧ isWs c = false := by
  refine ⟨?_, ?_, ?_, ?_⟩
  · rintro rfl; revert h; decide
  · rintro rfl; revert h; decide
  · rintro rfl; revert h; decide
  · by_contra hws
    simp only [isWs, Bool.or_eq_true, decide_eq_true_eq, Bool.not_eq_false] at hws
    rcases hws with ((rfl | rfl) | rfl) | rfl <;> revert h <;> decide

theorem parseValue_number (fuel : Nat) (num rest : List Char) (d : Char)
    (h : isJsonNumber num = true) (hd : isNumChar d = false) :
    parseValue (fuel + 1) (num ++ d :: rest) = some (Json.number num, d :: rest) := by
  obtain ⟨c, t, rfl, hc⟩ := isJsonNumber_head num h
  obtain ⟨h1, h2, h3, h4⟩ := isNumChar_not_structural c hc
  have htd := takeWhile_numChar (c :: t) rest d (isJsonNumber_numChar _ h) hd
  show parseValue (fuel + 1) (c :: (t ++ d :: rest)) = _
  simp only [parseValue, skipWs, h4, Bool.false_eq_true, if_false, h1, h2, h3, hc, if_true]
  show parseNumber ((c :: t) ++ d :: rest) = _
  unfold parseNumber
  rw [htd.1, htd.2, h]
  rfl

theorem parseValue_string (fuel : Nat) (text rest : List Char) (h : plainText text) :
    parseValue (fuel + 1) ('"' :: (text ++ '"' :: rest)) = some (Json.string text, rest) := by
  have hq : isWs '"' = false := by decide
  have h1 : ('"' : Char) ≠ '\x7b' := by decide
  have h2 : ('"' : Char) ≠ '[' := by decide
  simp [parseValue, skipWs, hq, h1, h2, parseStringBody_plain text rest h]

theorem NumState.step_digitChar (r : Nat) (h : r < 10) :
    NumState.step NumState.int (Nat.digitChar r) = NumState.int ∧
      (0 < r → NumState.step NumState.start (Nat.digitChar r) = NumState.int) := by
  interval_cases r <;> decide

theorem NumState.foldl_toDigitsCore (fuel : Nat) :
    ∀ (n : Nat) (ds : List Char), 0 < n → n < fuel →
      (Nat.toDigitsCore 10 fuel n ds).foldl NumState.step NumState.start =
        ds.foldl NumState.step NumState.int := by
  induction fuel with
  | zero => intro n ds _ h; omega
  | succ fuel ih =>
    intro n ds hpos hlt
    have hr : n % 10 < 10 := Nat.mod_lt n (by decide)
    simp only [Nat.toDigitsCore]
    split_ifs with h0
    · have hn : n % 10 = n := by omega
      have hr0 : 0 < n % 10 := by omega
      rw [List.foldl_cons, (NumState.step_digitChar (n % 10) hr).2 hr0]
    · have h1 : 0 < n / 10 := Nat.pos_of_ne_zero h0
      have h2 : n / 10 < fuel := by omega
      rw [ih (n / 10) _ h1 h2, List.foldl_cons, (NumState.step_digitChar (n % 10) hr).1]

theorem isJsonNumber_repr (n : Nat) : isJsonNumber (Nat.repr n).data = true := by
  rcases Nat.eq_zero_or_pos n with rfl | hpos
  · decide
  · show isJsonNumber (Nat.toDigitsCore 10 (n + 1) n []) = true
    rw [isJsonNumber, NumState.foldl_toDigitsCore (n + 1) n [] hpos (Nat.lt_succ_self n)]
    rfl

/-! ## Reading members and elements -/

theorem parseMembers_blank (fuel : Nat) (s : List Char) :
    parseMembers fuel (' ' :: s) = parseMembers fuel s := by
  cases fuel with
  | zero => simp [parseMembers]
  | succ k =>
    have h : isWs ' ' = true := by decide
    simp only [parseMembers, skipWs, h, if_true]

theorem parseMembers_comma (fuel : Nat) (key vtext rest : List Char) (v : Json)
    (hk : plainText key) (hv : parseValue fuel vtext = some (v, ',' :: rest)) :
    parseMembers (fuel + 1) ('"' :: (key ++ '"' :: ':' :: vtext)) =
      (parseMembers fuel rest).map (fun r => ((key, v) :: r.1, r.2)) := by
  have hq : isWs '"' = false := by decide
  have hc : isWs ':' = false := by decide
  have hm : isWs ',' = false := by decide
  simp [parseMembers, skipWs, hq, hc, hm, parseStringBody_plain key _ hk, hv]

theorem parseMembers_close (fuel : Nat) (key vtext rest : List Char) (v : Json)
    (hk : plainText key) (hv : parseValue fuel vtext = some (v, '\x7d' :: rest)) :
    parseMembers (fuel + 1) ('"' :: (key ++ '"' :: ':' :: vtext)) =
      some ([(key, v)], rest) := by
  have hq : isWs '"' = false := by decide
  have hc : isWs ':' = false := by decide
  have hm : isWs '\x7d' = false := by decide
  have hne : ('\x7d' : Char) ≠ ',' := by decide
  simp [parseMembers, skipWs, hq, hc, hm, hne, parseStringBody_plain key _ hk, hv]

theorem parseValue_object (fuel : Nat) (rest rest1 : List Char)
    (members : List (List Char × Json))
    (h : parseMembers fuel ('"' :: rest) = some (members, rest1)) :
    parseValue (fuel + 1) ('\x7b' :: '"' :: rest) = some (Json.object members, rest1) := by
  have hb : isWs '\x7b' = false := by decide
  have hq : isWs '"' = false := by decide
  have hne : ('"' : Char) ≠ '\x7d' := by decide
  simp [parseValue, skipWs, hb, hq, hne, h]

theorem parseValue_array (fuel : Nat) (rest rest1 : List Char) (elements : List Json)
    (h : parseElements fuel ('\x7b' :: rest) = some (elements, rest1)) :
    parseValue (fuel + 1) ('[' :: '\x7b' :: rest) = some (Json.array elements, rest1) := by
  have hb : isWs '[' = false := by decide
  have hq : isWs '\x7b' = false := by decide
  have h1 : ('[' : Char) ≠ '\x7b' := by decide
  have hne : ('\x7b' : Char) ≠ ']' := by decide
  simp [parseValue, skipWs, hb, hq, h1, hne, h]

theorem parseValue_empty_object (fuel : Nat) (rest : List Char) :
    parseValue (fuel + 1) ('\x7b' :: '\x7d' :: rest) = some (Json.object [], rest) := by
  have hb : isWs '\x7b' = false := by decide
  have hq : isWs '\x7d' = false := by decide
  simp [parseValue, skipWs, hb, hq]

theorem parseElements_comma (fuel : Nat) (s rest : List Char) (v : Json)
    (hv : parseValue fuel s = some (v, '\n' :: ',' :: rest)) :
    parseElements (fuel + 1) s =
      (parseElements fuel rest).map (fun r => (v :: r.1, r.2)) := by
  have hn : isWs '\n' = true := by decide
  have hm : isWs ',' = false := by decide
  simp [parseElements, skipWs, hn, hm, hv]

theorem parseElements_close (fuel : Nat) (s rest : List Char) (v : Json)
    (hv : parseValue fuel s = some (v, '\n' :: ']' :: rest)) :
    parseElements (fuel + 1) s = some ([v], rest) := by
  have hn : isWs '\n' = true := by decide
  have hm : isWs ']' = false := by decide
  have hne : (']' : Char) ≠ ',' := by decide
  simp [parseElements, skipWs, hn, hm, hne, hv]

/-! ## Reading a record -/

theorem InstantEvent.instant_text_data (micros : Int → String) (e : InstantEvent)
    (more : List Char) :
    (InstantEvent.text micros e).data ++ more =
      ',' :: InstantEvent.objectChars micros e ('\n' :: more) := by
  rw [InstantEvent.instant_text_eq]
  simp only [String.data_append, List.append_assoc, InstantEvent.objectChars]
  rfl

theorem DurationEvent.duration_text_data (micros : Int → String) (e : DurationEvent)
    (more : List Char) :
    (DurationEvent.text micros e).data ++ more =
      ',' :: DurationEvent.objectChars micros e ('\n' :: more) := by
  rw [DurationEvent.duration_text_eq]
  simp only [String.data_append, List.append_assoc, DurationEvent.objectChars]
  rfl

theorem Event.text_data (micros : Int → String) (e : Event) (more : List Char) :
    (Event.text micros e).data ++ more = ',' :: Event.objectChars micros e ('\n' :: more) := by
  cases e with
  | instant e => exact InstantEvent.instant_text_data micros e more
  | duration e => exact DurationEvent.duration_text_data micros e more

theorem plainText_keys :
    plainText ['n', 'a', 'm', 'e'] ∧ plainText ['p', 'h'] ∧ plainText ['p', 'i', 'd'] ∧
      plainText ['t', 'i', 'd'] ∧ plainText ['t', 's'] ∧ plainText ['s'] ∧
      plainText ['d', 'u', 'r'] ∧ plainText ['i'] ∧ plainText ['X'] ∧ plainText ['g'] := by
  unfold plainText
  decide

theorem InstantEvent.instant_parseValue_objectChars (micros : Int → String) (e : InstantEvent)
    (fuel : Nat) (more : List Char) (hname : plainText e.name.data)
    (hnum : isJsonNumber (micros e.time).data = true) :
    parseValue (fuel + 8) (InstantEvent.objectChars micros e more) =
      some (Event.toJson micros (Event.instant e), more) := by
  obtain ⟨kname, kph, kpid, ktid, kts, ks, -, ki, -, kg⟩ := plainText_keys
  have hcomma : isNumChar ',' = false := by decide
  have hzero : isJsonNumber ['0'] = true := by decide
  unfold InstantEvent.objectChars
  refine parseValue_object (fuel + 7) _ _ _ ?_
  rw [parseMembers_comma (fuel + 6) _ _ _ _ kname (parseValue_string (fuel + 5) _ _ hname),
    parseMembers_comma (fuel + 5) _ _ _ _ kph (parseValue_string (fuel + 4) _ _ ki),
    parseMembers_blank,
    parseMembers_comma (fuel + 4) _ _ _ _ kpid
      (parseValue_number (fuel + 3) _ _ _ hzero hcomma),
    parseMembers_comma (fuel + 3) _ _ _ _ ktid
      (parseValue_number (fuel + 2) _ _ _ (isJsonNumber_repr _) hcomma),
    parseMembers_comma (fuel + 2) _ _ _ _ kts
      (parseValue_number (fuel + 1) _ _ _ hnum hcomma),
    parseMembers_close (fuel + 1) _ _ _ _ ks (parseValue_string fuel _ _ kg)]
  rfl

theorem DurationEvent.duration_parseValue_objectChars (micros : Int → String) (e : DurationEvent)
    (fuel : Nat) (more : List Char) (hname : plainText e.name.data)
    (hstart : isJsonNumber (micros e.start).data = true)
    (hdur : isJsonNumber (micros (e.end - e.start)).data = true) :
    parseValue (fuel + 8) (DurationEvent.objectChars micros e more) =
      some (Event.toJson micros (Event.duration e), more) := by
  obtain ⟨kname, kph, kpid, ktid, kts, -, kdur, -, kx, -⟩ := plainText_keys
  have hcomma : isNumChar ',' = false := by decide
  have hbrace : isNumChar '\x7d' = false := by decide
  have hzero : isJsonNumber ['0'] = true := by decide
  unfold DurationEvent.objectChars
  refine parseValue_object (fuel + 7) _ _ _ ?_
  rw [parseMembers_comma (fuel + 6) _ _ _ _ kname (parseValue_string (fuel + 5) _ _ hname),
    parseMembers_comma (fuel + 5) _ _ _ _ kph (parseValue_string (fuel + 4) _ _ kx),
    parseMembers_blank,
    parseMembers_comma (fuel + 4) _ _ _ _ kpid
      (parseValue_number (fuel + 3) _ _ _ hzero hcomma),
    parseMembers_comma (fuel + 3) _ _ _ _ ktid
      (parseValue_number (fuel + 2) _ _ _ (isJsonNumber_repr _) hcomma),
    parseMembers_comma (fuel + 2) _ _ _ _ kts
      (parseValue_number (fuel + 1) _ _ _ hstart hcomma),
    parseMembers_close (fuel + 1) _ _ _ _ kdur
      (parseValue_number fuel _ _ _ hdur hbrace)]
  rfl

theorem Event.parseValue_objectChars (micros : Int → String) (e : Event) (fuel : Nat)
    (more : List Char) (hname : plainText e.name.data) (hnum : e.numbersRendered micros) :
    parseValue (fuel + 8) (Event.objectChars micros e more) =
      some (Event.toJson micros e, more) := by
  cases e with
  | instant e => exact InstantEvent.instant_parseValue_objectChars micros e fuel more hname hnum
  | duration e =>
    exact DurationEvent.duration_parseValue_objectChars micros e fuel more hname hnum.1 hnum.2

/-! ## Reading the whole file (C4) -/

theorem records_data (micros : Int → String) (e : Event) (es : List Event)
    (more : List Char) :
    (records micros (e :: es)).data ++ more =
      ',' :: Event.objectChars micros e ('\n' :: ((records micros es).data ++ more)) := by
  rw [← Event.text_data]
  simp [records, String.data_append, List.append_assoc]

theorem records_length (micros : Int → String) (es : List Event) :
    es.length ≤ (records micros es).data.length := by
  induction es with
  | nil => simp
  | cons e es ih =>
    have h := congrArg List.length (records_data micros e es [])
    simp only [List.append_nil, List.length_cons] at h
    have h2 : (records micros es).data.length ≤
        (Event.objectChars micros e ('\n' :: (records micros es).data)).length := by
      cases e <;>
        simp only [Event.objectChars, InstantEvent.objectChars, DurationEvent.objectChars,
          List.length_cons, List.length_append] <;> omega
    simp only [List.length_cons]
    omega

theorem parseElements_records (micros : Int → String) (es : List Event)
    (hnames : ∀ e ∈ es, plainText e.name.data)
    (hnums : ∀ e ∈ es, e.numbersRendered micros) :
    ∀ (vchars : List Char → List Char) (j0 : Json),
      (∀ fuel more, parseValue (fuel + 8) (vchars more) = some (j0, more)) →
      ∀ fuel rest,
        parseElements (fuel + 9 + es.length)
            (vchars ('\n' :: ((records micros es).data ++ ']' :: rest))) =
          some (j0 :: es.map (Event.toJson micros), rest) := by
  induction es with
  | nil =>
    intro vchars j0 hv fuel rest
    exact parseElements_close (fuel + 8) _ rest j0 (hv fuel _)
  | cons e es ih =>
    intro vchars j0 hv fuel rest
    have hn : ∀ x ∈ es, plainText x.name.data :=
      fun x hx => hnames x (List.mem_cons_of_mem e hx)
    have hr : ∀ x ∈ es, x.numbersRendered micros :=
      fun x hx => hnums x (List.mem_cons_of_mem e hx)
    have he := Event.parseValue_objectChars micros e
    have hstep := ih hn hr (Event.objectChars micros e) (Event.toJson micros e)
      (fun f more => he f more (hnames e (List.mem_cons_self e es))
        (hnums e (List.mem_cons_self e es))) fuel rest
    have hfuel : fuel + 9 + (e :: es).length = (fuel + 9 + es.length) + 1 := by
      simp only [List.length_cons]
      omega
    have hv0 := hv (fuel + 1 + es.length)
      ('\n' :: ',' :: Event.objectChars micros e
        ('\n' :: ((records micros es).data ++ ']' :: rest)))
    have hfuel2 : fuel + 1 + es.length + 8 = fuel + 9 + es.length := by omega
    rw [hfuel2] at hv0
    rw [records_data, hfuel, parseElements_comma (fuel + 9 + es.length) _ _ j0 hv0, hstep]
    rfl

theorem FileCollector.lifetime_data (micros : Int → String) (events : List Event) :
    (FileCollector.lifetime micros events).file.content.data =
      '\x7b' :: '"' :: ("displayTimeUnit".data ++ '"' :: ':' :: '"' :: (['m', 's'] ++ '"' :: ',' ::
        '"' :: ("traceEvents".data ++ '"' :: ':' :: '[' :: '\x7b' :: '\x7d' :: '\n' ::
          ((records micros events).data ++ ']' :: '\x7d' :: [])))) := by
  rw [FileCollector.lifetime_file]
  simp only [String.data_append, List.append_assoc]
  rfl

theorem FileCollector.lifetime_parseJson (micros : Int → String) (events : List Event)
    (hnames : ∀ e ∈ events, plainText e.name.data)
    (hnums : ∀ e ∈ events, e.numbersRendered micros) :
    parseJson (FileCollector.lifetime micros events).file.content.data =
      some (Json.object
        [("displayTimeUnit".data, Json.string "ms".data),
         ("traceEvents".data,
           Json.array (Json.object [] :: events.map (Event.toJson micros)))]) := by
  have hlen : ∃ fuel,
      (FileCollector.lifetime micros events).file.content.data.length + 1 =
        fuel + 9 + events.length + 4 := by
    have h := records_length micros events
    refine ⟨(FileCollector.lifetime micros events).file.content.data.length -
      (events.length + 12), ?_⟩
    rw [FileCollector.lifetime_data]
    simp only [List.length_cons, List.length_append]
    omega
  obtain ⟨fuel, hfuel⟩ := hlen
  have k1 : plainText "displayTimeUnit".data := by unfold plainText; decide
  have k2 : plainText "traceEvents".data := by unfold plainText; decide
  have k3 : plainText ['m', 's'] := by unfold plainText; decide
  have hel := parseElements_records micros events hnames hnums
    (fun more => '\x7b' :: '\x7d' :: more) (Json.object [])
    (fun f more => parseValue_empty_object (f + 7) more) fuel ['\x7d']
  have harr := parseValue_array (fuel + 9 + events.length) _ _ _ hel
  have hm2 := parseMembers_close (fuel + 9 + events.length + 1) "traceEvents".data _ _ _ k2 harr
  have hm1 := parseMembers_comma (fuel + 9 + events.length + 2) "displayTimeUnit".data _ _ _ k1
    (parseValue_string (fuel + 9 + events.length + 1) ['m', 's']
      (',' :: '"' :: ("traceEvents".data ++ '"' :: ':' :: '[' :: '\x7b' :: '\x7d' :: '\n' ::
        ((records micros events).data ++ ']' :: '\x7d' :: []))) k3)
  rw [hm2] at hm1
  have hobj := parseValue_object (fuel + 9 + events.length + 3) _ _ _ hm1
  unfold parseJson
  rw [hfuel, FileCollector.lifetime_data, hobj]
  rfl

/-- C4 (as amended): for every sequence of events whose names hold no quotation mark, no
backslash and no control character, and whose times are rendered as JSON numbers, the
complete file of a collector that was constructed, written to and destroyed parses as a
single JSON object whose `traceEvents` member is an array of exactly 1 + n elements, the
empty placeholder object and one element for each of the n records written. -/
theorem FileCollector.lifetime_traceEvents_length (micros : Int → String)
    (events : List Event) (hnames : ∀ e ∈ events, plainText e.name.data)
    (hnums : ∀ e ∈ events, e.numbersRendered micros) :
    ((parseJson (FileCollector.lifetime micros events).file.content.data).bind
        (Json.member "traceEvents".data)).bind Json.arrayLength =
      some (1 + events.length) := by
  rw [FileCollector.lifetime_parseJson micros events hnames hnums]
  simp [Json.member, Json.arrayLength, List.find?, Nat.add_comm]

/-- Witness for C4: an instant event `start` at tick 0 and a duration event `work` from
tick 1000 to tick 3000, the whole numbers of microseconds rendered in decimal. -/
theorem FileCollector.lifetime_traceEvents_length_witness :
    (∀ e ∈ [Event.instant ⟨"start", 1, 0⟩, Event.duration ⟨"work", 1, 1000, 3000⟩],
        plainText e.name.data) ∧
      (∀ e ∈ [Event.instant ⟨"start", 1, 0⟩, Event.duration ⟨"work", 1, 1000, 3000⟩],
        e.numbersRendered (fun t => toString (t / 1000))) ∧
      ((parseJson (FileCollector.lifetime (fun t => toString (t / 1000))
          [Event.instant ⟨"start", 1, 0⟩,
           Event.duration ⟨"work", 1, 1000, 3000⟩]).file.content.data).bind
        (Json.member "traceEvents".data)).bind Json.arrayLength =
      some (1 + [Event.instant ⟨"start", 1, 0⟩,
        Event.duration ⟨"work", 1, 1000, 3000⟩].length) :=
  ⟨by decide, by decide,
    FileCollector.lifetime_traceEvents_length (fun t => toString (t / 1000))
      [Event.instant ⟨"start", 1, 0⟩, Event.duration ⟨"work", 1, 1000, 3000⟩]
      (by decide) (by decide)⟩

/-- C4 fails as worded: names are written unescaped, and the file of a collector that
received the single instant event named `a"b` (lane 1, tick 0, rendered `0`) is not a
JSON text. -/
theorem FileCollector.lifetime_not_json :
    (FileCollector.lifetime (fun _ => "0")
        [Event.instant ⟨"a\"b", 1, 0⟩]).file.content =
        "\x7b\"displayTimeUnit\":\"ms\",\"traceEvents\":[\x7b\x7d\n" ++
          ",\x7b\"name\":\"a\"b\",\"ph\":\"i\", \"pid\":0,\"tid\":1,\"ts\":0,\"s\":\"g\"\x7d\n" ++
          "]\x7d" ∧
      parseJson (FileCollector.lifetime (fun _ => "0")
        [Event.instant ⟨"a\"b", 1, 0⟩]).file.content.data = none := by
  constructor
  · decide
  · rw [← Option.not_isSome_iff_eq_none]
    decide

end prf
